import Mathlib

/-!
Shallow embedding of the dog-matching core (`dogs/utils.py` together with the
`Dog` and `Match` rows of `dogs/models.py`): the compatibility scorer
`calculate_dog_compatibility_score`, the candidate finder
`get_compatible_dogs`, and the match lifecycle operations `create_match`,
`accept_match`, `decline_match`.  Python numbers that can become `float`
(the 7.5-point temperament increments) are modelled as `ℚ`; every value the
code produces is an exact dyadic rational, so this is faithful.  The database
is modelled as an explicit list of match rows plus an auto-increment counter.
-/

namespace DogMatch

/-- Models Python `str.lower()` on one character, for the ASCII Latin and
Cyrillic letters that the code base uses (the only alphabets occurring in the
scorer's keyword table and in the stored profiles). -/
def lowerChar (c : Char) : Char :=
  if 'A' ≤ c ∧ c ≤ 'Z' then Char.ofNat (c.toNat + 32)
  else if 'А' ≤ c ∧ c ≤ 'Я' then Char.ofNat (c.toNat + 32)
  else if c = 'Ё' then 'ё'
  else c

/-- Models Python `s.lower()`: lower-case every character. -/
def pyLower (s : String) : String := String.mk (s.data.map lowerChar)

/-- `startsWithChars needle hay` : `needle` is a prefix of `hay`. -/
def startsWithChars : List Char → List Char → Bool
  | [], _ => true
  | _ :: _, [] => false
  | a :: as, b :: bs => a == b && startsWithChars as bs

/-- `infixOfChars needle hay` : `needle` occurs contiguously inside `hay`. -/
def infixOfChars (needle : List Char) : List Char → Bool
  | [] => startsWithChars needle []
  | b :: t => startsWithChars needle (b :: t) || infixOfChars needle t

/-- Models the Python substring test `needle in hay`. -/
def strContains (hay needle : String) : Bool :=
  infixOfChars needle.data hay.data

/-- The `Dog` model row (`dogs/models.py`): the fields read by the core.
Profiles and owners are identified by their primary keys. -/
structure Dog where
  id : Nat
  owner : Nat
  age : Nat
  gender : String
  size : String
  breed : String
  temperament : String
  looking_for : String
  is_active : Bool
deriving DecidableEq

/-- Age sub-score (max 25): the `age_diff` ladder of
`calculate_dog_compatibility_score`. -/
def age_points (age1 age2 : Nat) : ℚ :=
  let age_diff : Nat := (((age1 : Int) - (age2 : Int)).natAbs)
  if age_diff ≤ 1 then 25
  else if age_diff ≤ 3 then 20
  else if age_diff ≤ 5 then 15
  else if age_diff ≤ 8 then 10
  else 5

/-- The `size_compatibility` dict together with `.get(default 10)`. -/
def size_compatibility (p : String × String) : ℚ :=
  if p = ("S", "S") then 20
  else if p = ("S", "M") then 15
  else if p = ("S", "L") then 5
  else if p = ("M", "S") then 15
  else if p = ("M", "M") then 20
  else if p = ("M", "L") then 15
  else if p = ("L", "S") then 5
  else if p = ("L", "M") then 15
  else if p = ("L", "L") then 20
  else 10

/-- Gender sub-score (max 15). -/
def gender_points (g1 g2 : String) : ℚ :=
  if g1 ≠ g2 then 15 else 10

/-- The `compatible_goals` dict together with `.get(default 10)`. -/
def compatible_goals (p : String × String) : ℚ :=
  if p = ("playmate", "playmate") then 20
  else if p = ("companion", "companion") then 20
  else if p = ("mate", "mate") then 20
  else if p = ("friendship", "friendship") then 20
  else if p = ("playmate", "companion") then 15
  else if p = ("companion", "playmate") then 15
  else if p = ("playmate", "friendship") then 15
  else if p = ("friendship", "playmate") then 15
  else if p = ("companion", "friendship") then 15
  else if p = ("friendship", "companion") then 15
  else 10

/-- Breed sub-score (max 5): case-insensitive breed equality. -/
def breed_points (b1 b2 : String) : ℚ :=
  if pyLower b1 = pyLower b2 then 5 else 0

/-- The `temperament_keywords` dict.  The function only ever iterates its
`.keys()`; the synonym lists are carried for fidelity but are unused. -/
def temperament_keywords : List (String × List String) :=
  [("дружелюбный", ["дружелюбный", "дружелюбная", "общительный", "общительная"]),
   ("энергичный",
     ["энергичный", "энергичная", "активный", "активная", "игривый", "игривая"]),
   ("спокойный",
     ["спокойный", "спокойная", "мирный", "мирная", "уравновешенный",
      "уравновешенная"]),
   ("защитный", ["защитный", "защитная", "сторожевой", "сторожевая"]),
   ("послушный", ["послушный", "послушная", "управляемый", "управляемая"])]

/-- `temperament_keywords.keys()`. -/
def temperament_keys : List String := temperament_keywords.map Prod.fst

/-- The contribution of one keyword pair inside the nested temperament loop:
`+7.5` for an identical keyword, `+5` for a distinct pair drawn from the
friendly/energetic affinity subset, `0` otherwise. -/
def tag_pair_points (w1 w2 : String) : ℚ :=
  if w1 = w2 then 7.5
  else if (w1 = "дружелюбный" ∨ w1 = "энергичный") ∧
      (w2 = "дружелюбный" ∨ w2 = "энергичный") then 5
  else 0

/-- The keywords detected in a dog's temperament text:
`dog_word in dog.temperament.lower()` for each key of the taxonomy. -/
def detected_keys (d : Dog) : List String :=
  temperament_keys.filter (fun w => strContains (pyLower d.temperament) w)

/-- The accumulated `temperament_score` of the nested loop (before the
clamp to 15). -/
def temperament_score (dog1 dog2 : Dog) : ℚ :=
  ((detected_keys dog1).map (fun dog1_word =>
    ((detected_keys dog2).map (fun dog2_word =>
      tag_pair_points dog1_word dog2_word)).sum)).sum

/-- `calculate_dog_compatibility_score` (`dogs/utils.py`): sums the six
sub-scores and caps the total at `max_score = 100`; a self-comparison
short-circuits to 0. -/
def calculate_dog_compatibility_score (dog1 dog2 : Dog) : ℚ :=
  if dog1.id = dog2.id then 0
  else
    min
      (age_points dog1.age dog2.age
        + size_compatibility (dog1.size, dog2.size)
        + gender_points dog1.gender dog2.gender
        + compatible_goals (dog1.looking_for, dog2.looking_for)
        + breed_points dog1.breed dog2.breed
        + min (temperament_score dog1 dog2) 15)
      100

/-- The `Match` model row (`dogs/models.py`): primary key, the two dog
foreign keys, and the status string (`"pending"`, `"accepted"`,
`"declined"`). -/
structure MatchRec where
  id : Nat
  dog_from_id : Nat
  dog_to_id : Nat
  status : String
deriving DecidableEq

/-- The match table: its rows in insertion order plus the auto-increment
primary-key counter. -/
structure MatchStore where
  «matches» : List MatchRec
  next_id : Nat
deriving DecidableEq

/-- `Match.objects.filter(Q(dog_from=a, dog_to=b) | Q(dog_from=b,
dog_to=a)).first()` — the existence probe of `create_match`. -/
def find_existing_match (db : MatchStore) (dog_from dog_to : Dog) :
    Option MatchRec :=
  db.«matches».find? (fun m =>
    (m.dog_from_id == dog_from.id && m.dog_to_id == dog_to.id) ||
    (m.dog_from_id == dog_to.id && m.dog_to_id == dog_from.id))

/-- `create_match` (`dogs/utils.py`): return the existing match for either
direction of the pair if there is one, otherwise insert a fresh `pending`
row. -/
def create_match (db : MatchStore) (dog_from dog_to : Dog) :
    MatchStore × MatchRec :=
  match find_existing_match db dog_from dog_to with
  | some existing_match => (db, existing_match)
  | none =>
    let m : MatchRec :=
      { id := db.next_id, dog_from_id := dog_from.id, dog_to_id := dog_to.id,
        status := "pending" }
    ({ «matches» := db.«matches» ++ [m], next_id := db.next_id + 1 }, m)

/-- `Match.objects.filter(dog_from=match.dog_to, dog_to=match.dog_from)
.first()` — the reverse-match probe of `accept_match`. -/
def find_reverse_match (db : MatchStore) (m : MatchRec) : Option MatchRec :=
  db.«matches».find? (fun r =>
    r.dog_from_id == m.dog_to_id && r.dog_to_id == m.dog_from_id)

/-- `row.status = st; row.save()` — update the row with the given primary
key. -/
def set_status (db : MatchStore) (mid : Nat) (st : String) : MatchStore :=
  { db with
    «matches» := db.«matches».map (fun r =>
      if r.id = mid then { r with status := st } else r) }

/-- `accept_match` (`dogs/utils.py`): no-op on a non-pending match; on a
pending match, accept it, and also accept the reverse match when one exists
and is itself pending. -/
def accept_match (db : MatchStore) (m : MatchRec) : MatchStore × Bool :=
  if m.status ≠ "pending" then (db, false)
  else
    match find_reverse_match db m with
    | some reverse_match =>
      if reverse_match.status = "pending" then
        (set_status (set_status db m.id "accepted") reverse_match.id "accepted",
          true)
      else (set_status db m.id "accepted", true)
    | none => (set_status db m.id "accepted", true)

/-- `decline_match` (`dogs/utils.py`): no-op on a non-pending match;
otherwise decline only the given match. -/
def decline_match (db : MatchStore) (m : MatchRec) : MatchStore × Bool :=
  if m.status ≠ "pending" then (db, false)
  else (set_status db m.id "declined", true)

/-- The descending-score comparison used to sort candidate pairs:
`x` may come before `y` when `x`'s score is at least `y`'s.  Together with a
stable insertion it models Python's stable
`sort(key=lambda x: x[1], reverse=True)`. -/
def score_ge (x y : Dog × ℚ) : Prop := y.2 ≤ x.2

instance : DecidableRel score_ge := fun x y =>
  decidable_of_iff (y.2 ≤ x.2) Iff.rfl

instance : IsTotal (Dog × ℚ) score_ge := ⟨fun x y => le_total y.2 x.2⟩

instance : IsTrans (Dog × ℚ) score_ge :=
  ⟨fun _ _ _ h1 h2 => le_trans h2 h1⟩

/-- The first four filter steps of `get_compatible_dogs`: active, not the
query dog, different owner, age window, and (optionally) no existing match
in either direction. -/
def eligible_dogs (dogs : List Dog) (db : MatchStore) (user_dog : Dog)
    (exclude_matches : Bool) : List Dog :=
  let compatible_dogs :=
    dogs.filter (fun d => d.is_active && d.id != user_dog.id)
  let compatible_dogs :=
    compatible_dogs.filter (fun d => d.owner != user_dog.owner)
  let compatible_dogs :=
    compatible_dogs.filter (fun d =>
      decide (max 0 ((user_dog.age : Int) - 10) ≤ (d.age : Int)) &&
      decide ((d.age : Int) ≤ (user_dog.age : Int) + 10))
  if exclude_matches then
    let existing_matches := db.«matches».filter (fun m =>
      m.dog_from_id == user_dog.id || m.dog_to_id == user_dog.id)
    let matched_dog_ids := existing_matches.map (fun m =>
      if m.dog_from_id = user_dog.id then m.dog_to_id else m.dog_from_id)
    compatible_dogs.filter (fun d => !(matched_dog_ids.contains d.id))
  else compatible_dogs

/-- The scored pre-sort candidate list `compatible_dogs_with_scores`: each
eligible dog paired with its score, keeping only scores `>= 30`. -/
def compatible_dogs_with_scores (dogs : List Dog) (db : MatchStore)
    (user_dog : Dog) (exclude_matches : Bool) : List (Dog × ℚ) :=
  ((eligible_dogs dogs db user_dog exclude_matches).map (fun dog =>
    (dog, calculate_dog_compatibility_score user_dog dog))).filter
    (fun x => decide ((30 : ℚ) ≤ x.2))

/-- `get_compatible_dogs` (`dogs/utils.py`): filter, score, threshold,
stable descending sort, and project the dogs back out. -/
def get_compatible_dogs (dogs : List Dog) (db : MatchStore) (user_dog : Dog)
    (exclude_matches : Bool) : List Dog :=
  (List.insertionSort score_ge
    (compatible_dogs_with_scores dogs db user_dog exclude_matches)).map
    Prod.fst

/-- The status of the row with primary key `i`, when present. -/
def status_in (db : MatchStore) (i : Nat) : Option String :=
  (db.«matches».find? (fun r => r.id == i)).map (fun r => r.status)

/-- An empty match table (fresh database). -/
def emptyStore : MatchStore := { «matches» := [], next_id := 1 }

/-- A concrete profile used to evaluate the operations. -/
def dogAlpha : Dog :=
  { id := 1, owner := 1, age := 3, gender := "M", size := "M",
    breed := "лабрадор", temperament := "дружелюбный",
    looking_for := "playmate", is_active := true }

/-- A second concrete profile, owned by a different user. -/
def dogBeta : Dog :=
  { id := 2, owner := 2, age := 3, gender := "F", size := "M",
    breed := "Лабрадор", temperament := "дружелюбный",
    looking_for := "playmate", is_active := true }

/-- A table holding both directions of the pair `1 ↔ 2`, both pending. -/
def dbPair : MatchStore :=
  { «matches» :=
      [{ id := 1, dog_from_id := 1, dog_to_id := 2, status := "pending" },
       { id := 2, dog_from_id := 2, dog_to_id := 1, status := "pending" }],
    next_id := 3 }

/-- The pending match `1 → 2` of `dbPair`. -/
def matchAB : MatchRec :=
  { id := 1, dog_from_id := 1, dog_to_id := 2, status := "pending" }

/-- The pending match `2 → 1` of `dbPair`. -/
def matchBA : MatchRec :=
  { id := 2, dog_from_id := 2, dog_to_id := 1, status := "pending" }

/-- A table holding a single already-accepted match. -/
def dbAccepted : MatchStore :=
  { «matches» :=
      [{ id := 1, dog_from_id := 1, dog_to_id := 2, status := "accepted" }],
    next_id := 2 }

/-- The accepted match of `dbAccepted`. -/
def matchAccepted : MatchRec :=
  { id := 1, dog_from_id := 1, dog_to_id := 2, status := "accepted" }

/-! ### Bounds on the sub-scores -/

lemma age_points_ge (a1 a2 : Nat) : (5 : ℚ) ≤ age_points a1 a2 := by
  unfold age_points
  dsimp only
  split_ifs <;> norm_num

lemma age_points_le (a1 a2 : Nat) : age_points a1 a2 ≤ 25 := by
  unfold age_points
  dsimp only
  split_ifs <;> norm_num

lemma size_compatibility_ge (p : String × String) :
    (5 : ℚ) ≤ size_compatibility p := by
  unfold size_compatibility
  split_ifs <;> norm_num

lemma gender_points_ge (g1 g2 : String) : (10 : ℚ) ≤ gender_points g1 g2 := by
  unfold gender_points
  split_ifs <;> norm_num

lemma compatible_goals_ge (p : String × String) :
    (10 : ℚ) ≤ compatible_goals p := by
  unfold compatible_goals
  split_ifs <;> norm_num

lemma breed_points_nonneg (b1 b2 : String) : (0 : ℚ) ≤ breed_points b1 b2 := by
  unfold breed_points
  split_ifs <;> norm_num

lemma tag_pair_points_nonneg (w1 w2 : String) :
    (0 : ℚ) ≤ tag_pair_points w1 w2 := by
  unfold tag_pair_points
  split_ifs <;> norm_num

lemma temperament_score_nonneg (d1 d2 : Dog) :
    (0 : ℚ) ≤ temperament_score d1 d2 := by
  unfold temperament_score
  refine List.sum_nonneg ?_
  intro x hx
  obtain ⟨w1, _, rfl⟩ := List.mem_map.mp hx
  refine List.sum_nonneg ?_
  intro y hy
  obtain ⟨w2, _, rfl⟩ := List.mem_map.mp hy
  exact tag_pair_points_nonneg w1 w2

lemma score_ge_30 (d1 d2 : Dog) (h : d1.id ≠ d2.id) :
    (30 : ℚ) ≤ calculate_dog_compatibility_score d1 d2 := by
  unfold calculate_dog_compatibility_score
  rw [if_neg h]
  refine le_min ?_ (by norm_num)
  have h1 := age_points_ge d1.age d2.age
  have h2 := size_compatibility_ge (d1.size, d2.size)
  have h3 := gender_points_ge d1.gender d2.gender
  have h4 := compatible_goals_ge (d1.looking_for, d2.looking_for)
  have h5 := breed_points_nonneg d1.breed d2.breed
  have h6 : (0 : ℚ) ≤ min (temperament_score d1 d2) 15 :=
    le_min (temperament_score_nonneg d1 d2) (by norm_num)
  linarith

/-- C3: for every pair of profiles, the compatibility score lies in
`[0, 100]`. -/
theorem score_in_range (d1 d2 : Dog) :
    0 ≤ calculate_dog_compatibility_score d1 d2 ∧
      calculate_dog_compatibility_score d1 d2 ≤ 100 := by
  by_cases h : d1.id = d2.id
  · unfold calculate_dog_compatibility_score
    rw [if_pos h]
    norm_num
  · refine ⟨le_trans (by norm_num) (score_ge_30 d1 d2 h), ?_⟩
    unfold calculate_dog_compatibility_score
    rw [if_neg h]
    exact min_le_right _ _

/-- C9: profiles with distinct ids always score at least 30, and therefore
the `score >= 30` threshold step of `get_compatible_dogs` never drops a
candidate that survived the earlier filter steps. -/
theorem score_ge_30_and_threshold_vacuous :
    (∀ d1 d2 : Dog, d1.id ≠ d2.id →
      (30 : ℚ) ≤ calculate_dog_compatibility_score d1 d2) ∧
    (∀ (dogs : List Dog) (db : MatchStore) (user_dog : Dog)
        (exclude_matches : Bool),
      compatible_dogs_with_scores dogs db user_dog exclude_matches =
        (eligible_dogs dogs db user_dog exclude_matches).map (fun dog =>
          (dog, calculate_dog_compatibility_score user_dog dog))) := by
  refine ⟨score_ge_30, ?_⟩
  intro dogs db user_dog exclude_matches
  unfold compatible_dogs_with_scores
  rw [List.filter_map]
  rw [show (eligible_dogs dogs db user_dog exclude_matches).filter
      ((fun x : Dog × ℚ => decide ((30 : ℚ) ≤ x.2)) ∘ fun dog =>
        (dog, calculate_dog_compatibility_score user_dog dog))
      = eligible_dogs dogs db user_dog exclude_matches from ?_]
  apply List.filter_eq_self.mpr
  intro d hd
  simp only [Function.comp_apply, decide_eq_true_eq]
  refine score_ge_30 user_dog d ?_
  intro hid
  -- every eligible dog has an id different from the query dog
  have : d ∈ dogs.filter (fun d => d.is_active && d.id != user_dog.id) := by
    unfold eligible_dogs at hd
    rcases Bool.eq_false_or_eq_true exclude_matches with he | he <;>
      simp only [he, if_true, if_false, Bool.false_eq_true] at hd <;>
      first
        | exact List.mem_of_mem_filter (List.mem_of_mem_filter
            (List.mem_of_mem_filter hd))
        | exact List.mem_of_mem_filter (List.mem_of_mem_filter hd)
  have hb := List.of_mem_filter this
  simp only [Bool.and_eq_true, bne_iff_ne] at hb
  exact hb.2 hid.symm

/-- Witness for `score_ge_30_and_threshold_vacuous` on concrete profiles. -/
theorem score_ge_30_and_threshold_vacuous_witness :
    dogAlpha.id ≠ dogBeta.id ∧
      (30 : ℚ) ≤ calculate_dog_compatibility_score dogAlpha dogBeta :=
  ⟨by decide,
    score_ge_30_and_threshold_vacuous.1 dogAlpha dogBeta (by decide)⟩

/-! ### Symmetry of the scorer -/

lemma age_points_symm (a1 a2 : Nat) : age_points a1 a2 = age_points a2 a1 := by
  unfold age_points
  dsimp only
  rw [show (((a1 : Int) - (a2 : Int)).natAbs) = (((a2 : Int) - (a1 : Int)).natAbs)
    from by omega]

lemma string_cases_sml (t : String) :
    t = "S" ∨ t = "M" ∨ t = "L" ∨ (t ≠ "S" ∧ t ≠ "M" ∧ t ≠ "L") := by
  by_cases a : t = "S" <;> by_cases b : t = "M" <;> by_cases c : t = "L" <;>
    tauto

lemma size_compatibility_symm (s1 s2 : String) :
    size_compatibility (s1, s2) = size_compatibility (s2, s1) := by
  rcases string_cases_sml s1 with rfl | rfl | rfl | ⟨n1, n2, n3⟩ <;>
    rcases string_cases_sml s2 with rfl | rfl | rfl | ⟨m1, m2, m3⟩ <;>
    simp [size_compatibility, Prod.mk.injEq, *]

lemma gender_points_symm (g1 g2 : String) :
    gender_points g1 g2 = gender_points g2 g1 := by
  unfold gender_points
  by_cases h : g1 = g2
  · simp [h]
  · simp [h, Ne.symm h]

lemma string_cases_goal (t : String) :
    t = "playmate" ∨ t = "companion" ∨ t = "mate" ∨ t = "friendship" ∨
      (t ≠ "playmate" ∧ t ≠ "companion" ∧ t ≠ "mate" ∧ t ≠ "friendship") := by
  by_cases a : t = "playmate" <;> by_cases b : t = "companion" <;>
    by_cases c : t = "mate" <;> by_cases d : t = "friendship" <;> tauto

lemma compatible_goals_symm (s1 s2 : String) :
    compatible_goals (s1, s2) = compatible_goals (s2, s1) := by
  rcases string_cases_goal s1 with rfl | rfl | rfl | rfl | ⟨n1, n2, n3, n4⟩ <;>
    rcases string_cases_goal s2 with rfl | rfl | rfl | rfl | ⟨m1, m2, m3, m4⟩ <;>
    simp [compatible_goals, Prod.mk.injEq, *]

lemma breed_points_symm (b1 b2 : String) :
    breed_points b1 b2 = breed_points b2 b1 := by
  unfold breed_points
  by_cases h : pyLower b1 = pyLower b2
  · rw [if_pos h, if_pos h.symm]
  · rw [if_neg h, if_neg (mt Eq.symm h)]

lemma tag_pair_points_symm (w1 w2 : String) :
    tag_pair_points w1 w2 = tag_pair_points w2 w1 := by
  unfold tag_pair_points
  split_ifs <;> simp_all

lemma sum_sum_swap (f : String → String → ℚ) (l1 l2 : List String) :
    (l1.map (fun a => (l2.map (fun b => f a b)).sum)).sum =
      (l2.map (fun b => (l1.map (fun a => f a b)).sum)).sum := by
  induction l1 with
  | nil => simp
  | cons a t ih =>
    simp only [List.map_cons, List.sum_cons, List.sum_map_add, ih]

lemma temperament_score_symm (d1 d2 : Dog) :
    temperament_score d1 d2 = temperament_score d2 d1 := by
  unfold temperament_score
  rw [sum_sum_swap]
  refine congrArg List.sum (List.map_congr_left ?_)
  intro w2 _
  refine congrArg List.sum (List.map_congr_left ?_)
  intro w1 _
  exact tag_pair_points_symm w1 w2

/-- C10: the compatibility score is exactly symmetric in its two
arguments. -/
theorem score_symm (d1 d2 : Dog) :
    calculate_dog_compatibility_score d1 d2 =
      calculate_dog_compatibility_score d2 d1 := by
  unfold calculate_dog_compatibility_score
  by_cases h : d1.id = d2.id
  · rw [if_pos h, if_pos h.symm]
  · rw [if_neg h, if_neg (fun hh => h hh.symm), age_points_symm,
      size_compatibility_symm, gender_points_symm, compatible_goals_symm,
      breed_points_symm, temperament_score_symm]

/-! ### Match lifecycle -/

/-- C6: on a match that is no longer pending, both `accept_match` and
`decline_match` return `false` and leave the whole match table unchanged. -/
theorem terminal_match_noop (db : MatchStore) (m : MatchRec)
    (h : m.status ≠ "pending") :
    accept_match db m = (db, false) ∧ decline_match db m = (db, false) := by
  unfold accept_match decline_match
  rw [if_pos h, if_pos h]
  exact ⟨rfl, rfl⟩

/-- Witness for `terminal_match_noop` at a concrete accepted match. -/
theorem terminal_match_noop_witness :
    accept_match dbAccepted matchAccepted = (dbAccepted, false) ∧
      decline_match dbAccepted matchAccepted = (dbAccepted, false) :=
  terminal_match_noop dbAccepted matchAccepted (by decide)

lemma status_in_set_status (db : MatchStore) (j : Nat) (st : String) (i : Nat) :
    status_in (set_status db j st) i =
      if i = j then (status_in db i).map (fun _ => st) else status_in db i := by
  unfold status_in set_status
  dsimp only
  rw [List.find?_map]
  rw [show ((fun r : MatchRec => r.id == i) ∘ fun r : MatchRec =>
      if r.id = j then { r with status := st } else r) =
      (fun r : MatchRec => r.id == i) from funext fun r => by
    by_cases h : r.id = j <;> simp [h]]
  cases hf : db.«matches».find? (fun r : MatchRec => r.id == i) with
  | none => split <;> rfl
  | some r =>
    have hri : r.id = i := by simpa using List.find?_some hf
    by_cases hij : i = j
    · rw [if_pos hij]
      simp [Option.map_map, Function.comp, hri, hij]
    · rw [if_neg hij]
      simp only [Option.map_map, Option.map_some]
      have : r.id ≠ j := fun hc => hij (hri ▸ hc)
      simp [Function.comp, this]

lemma status_in_exists (db : MatchStore) {r : MatchRec}
    (h : r ∈ db.«matches») : ∃ s, status_in db r.id = some s := by
  unfold status_in
  have h2 : (db.«matches».find? (fun x : MatchRec => x.id == r.id)).isSome :=
    List.find?_isSome.mpr ⟨r, h, by simp⟩
  obtain ⟨x, hx⟩ := Option.isSome_iff_exists.mp h2
  exact ⟨x.status, by rw [hx]; rfl⟩

/-- C1: accepting a pending match returns `true`; when a pending reverse
match exists both rows become `accepted` and every other row is untouched,
and when no pending reverse match exists only the original row becomes
`accepted` and every other row is untouched. -/
theorem accept_match_spec (db : MatchStore) (m : MatchRec)
    (hm : m ∈ db.«matches») (hp : m.status = "pending") :
    (accept_match db m).2 = true ∧
    (∀ rev, find_reverse_match db m = some rev → rev.status = "pending" →
      status_in (accept_match db m).1 m.id = some "accepted" ∧
      status_in (accept_match db m).1 rev.id = some "accepted" ∧
      ∀ i, i ≠ m.id → i ≠ rev.id →
        status_in (accept_match db m).1 i = status_in db i) ∧
    ((∀ rev, find_reverse_match db m = some rev → rev.status ≠ "pending") →
      status_in (accept_match db m).1 m.id = some "accepted" ∧
      ∀ i, i ≠ m.id →
        status_in (accept_match db m).1 i = status_in db i) := by
  have hnp : ¬(m.status ≠ "pending") := fun hne => hne hp
  unfold accept_match
  rw [if_neg hnp]
  obtain ⟨sm, hsm⟩ := status_in_exists db hm
  cases hrev : find_reverse_match db m with
  | none =>
    refine ⟨rfl, ?_, ?_⟩
    · intro rev habs
      simp at habs
    · intro _
      constructor
      · rw [status_in_set_status, if_pos rfl, hsm]
        rfl
      · intro i hi
        rw [status_in_set_status, if_neg hi]
  | some rev =>
    have hrevmem : rev ∈ db.«matches» := List.mem_of_find?_eq_some hrev
    obtain ⟨sr, hsr⟩ := status_in_exists db hrevmem
    dsimp only
    by_cases hrp : rev.status = "pending"
    · rw [if_pos hrp]
      refine ⟨rfl, ?_, ?_⟩
      · intro rev' hrev' _
        have hre : rev' = rev := (Option.some.inj hrev').symm
        subst hre
        refine ⟨?_, ?_, ?_⟩
        · by_cases hmr : m.id = rev'.id
          · rw [status_in_set_status, if_pos hmr, status_in_set_status,
              if_pos rfl, hsm]
            rfl
          · rw [status_in_set_status, if_neg hmr, status_in_set_status,
              if_pos rfl, hsm]
            rfl
        · rw [status_in_set_status, if_pos rfl, status_in_set_status]
          by_cases hrm : rev'.id = m.id
          · rw [if_pos hrm, hrm, hsm]
            rfl
          · rw [if_neg hrm, hsr]
            rfl
        · intro i him hir
          rw [status_in_set_status, if_neg hir, status_in_set_status,
            if_neg him]
      · intro hforall
        exact absurd hrp (hforall rev rfl)
    · rw [if_neg hrp]
      refine ⟨rfl, ?_, ?_⟩
      · intro rev' hrev' hrp'
        have hre : rev' = rev := (Option.some.inj hrev').symm
        subst hre
        exact absurd hrp' hrp
      · intro _
        constructor
        · rw [status_in_set_status, if_pos rfl, hsm]
          rfl
        · intro i hi
          rw [status_in_set_status, if_neg hi]

/-- Witness for `accept_match_spec`: mutual acceptance on `dbPair`. -/
theorem accept_match_spec_witness :
    (accept_match dbPair matchAB).2 = true ∧
    status_in (accept_match dbPair matchAB).1 1 = some "accepted" ∧
    status_in (accept_match dbPair matchAB).1 2 = some "accepted" := by
  have h := accept_match_spec dbPair matchAB (by decide) (by decide)
  have h2 := h.2.1 matchBA (by decide) (by decide)
  exact ⟨h.1, h2.1, h2.2.1⟩

/-! ### Creation -/

lemma find_existing_match_symm (db : MatchStore) (A B : Dog) :
    find_existing_match db A B = find_existing_match db B A := by
  unfold find_existing_match
  rw [show (fun m : MatchRec =>
      (m.dog_from_id == A.id && m.dog_to_id == B.id) ||
      (m.dog_from_id == B.id && m.dog_to_id == A.id)) =
      (fun m : MatchRec =>
      (m.dog_from_id == B.id && m.dog_to_id == A.id) ||
      (m.dog_from_id == A.id && m.dog_to_id == B.id))
    from funext fun m => Bool.or_comm _ _]

/-- C2 counterexample: after `create_match` on `(dogAlpha, dogBeta)`,
`create_match` on the reversed pair returns the very same record and the
table still holds a single row — the reverse pair is inspected, so the two
calls do not yield two distinct records. -/
theorem create_match_reverse_not_distinct :
    (create_match (create_match emptyStore dogAlpha dogBeta).1 dogBeta
        dogAlpha).2 =
      (create_match emptyStore dogAlpha dogBeta).2 ∧
    ((create_match (create_match emptyStore dogAlpha dogBeta).1 dogBeta
        dogAlpha).1).«matches».length = 1 := by
  decide

/-- C2 amended: `create_match` is idempotent on the unordered pair — it
returns an existing record for either direction unchanged, so
`create_match(A,B)` followed by `create_match(B,A)` returns the same single
record and leaves the table as the first call left it. -/
theorem create_match_unordered_idempotent :
    (∀ (db : MatchStore) (A B : Dog) (m : MatchRec),
      find_existing_match db A B = some m → create_match db A B = (db, m)) ∧
    (∀ (db : MatchStore) (A B : Dog), A.id ≠ B.id →
      create_match (create_match db A B).1 B A =
        ((create_match db A B).1, (create_match db A B).2)) := by
  constructor
  · intro db A B m h
    unfold create_match
    rw [h]
  · intro db A B _
    cases h : find_existing_match db A B with
    | some m =>
      have h2 : find_existing_match db B A = some m :=
        (find_existing_match_symm db B A).trans h
      unfold create_match
      rw [h, h2]
    | none =>
      unfold create_match
      rw [h]
      dsimp only
      have h2 : find_existing_match
          { «matches» := db.«matches» ++
              [{ id := db.next_id, dog_from_id := A.id, dog_to_id := B.id,
                 status := "pending" }], next_id := db.next_id + 1 } B A =
          some { id := db.next_id, dog_from_id := A.id, dog_to_id := B.id,
                 status := "pending" } := by
        rw [find_existing_match_symm]
        unfold find_existing_match at h ⊢
        dsimp only
        rw [List.find?_append, h]
        simp
      rw [h2]

/-- Witness for `create_match_unordered_idempotent` on concrete profiles. -/
theorem create_match_unordered_idempotent_witness :
    dogAlpha.id ≠ dogBeta.id ∧
    create_match (create_match emptyStore dogAlpha dogBeta).1 dogBeta
        dogAlpha =
      ((create_match emptyStore dogAlpha dogBeta).1,
        (create_match emptyStore dogAlpha dogBeta).2) :=
  ⟨by decide, create_match_unordered_idempotent.2 emptyStore dogAlpha dogBeta
    (by decide)⟩

/-- C5 counterexample: `create_match` applied to the same profile twice
raises no error — it inserts and returns a pending record whose from- and
to-profile coincide. -/
theorem create_match_self_no_error :
    (create_match emptyStore dogAlpha dogAlpha).2.dog_from_id =
      (create_match emptyStore dogAlpha dogAlpha).2.dog_to_id ∧
    (create_match emptyStore dogAlpha dogAlpha).2.status = "pending" ∧
    (create_match emptyStore dogAlpha dogAlpha).1.«matches».length = 1 := by
  decide

/-- C5 amended: `create_match` performs no self-match validation — when no
match for the pair exists it creates and returns a new pending record whose
from- and to-profile are both `P`. -/
theorem create_match_self_creates (db : MatchStore) (P : Dog)
    (h : find_existing_match db P P = none) :
    create_match db P P =
      ({ «matches» := db.«matches» ++
          [{ id := db.next_id, dog_from_id := P.id, dog_to_id := P.id,
             status := "pending" }], next_id := db.next_id + 1 },
        { id := db.next_id, dog_from_id := P.id, dog_to_id := P.id,
          status := "pending" }) := by
  unfold create_match
  rw [h]

/-- Witness for `create_match_self_creates` on a fresh table. -/
theorem create_match_self_creates_witness :
    find_existing_match emptyStore dogAlpha dogAlpha = none ∧
    create_match emptyStore dogAlpha dogAlpha =
      ({ «matches» :=
          [{ id := 1, dog_from_id := 1, dog_to_id := 1,
             status := "pending" }], next_id := 2 },
        { id := 1, dog_from_id := 1, dog_to_id := 1, status := "pending" }) :=
  ⟨by decide, by
    have h := create_match_self_creates emptyStore dogAlpha (by decide)
    simpa using h⟩

/-! ### Non-integrality of the score -/

lemma score_dogAlpha_dogBeta :
    calculate_dog_compatibility_score dogAlpha dogBeta = 185 / 2 := by
  have hd1 : detected_keys dogAlpha = ["дружелюбный"] := by decide
  have hd2 : detected_keys dogBeta = ["дружелюбный"] := by decide
  have hts : temperament_score dogAlpha dogBeta = 7.5 := by
    unfold temperament_score
    rw [hd1, hd2]
    simp [tag_pair_points]
  unfold calculate_dog_compatibility_score
  rw [if_neg (by decide)]
  rw [show age_points dogAlpha.age dogBeta.age = 25 from rfl,
    show size_compatibility (dogAlpha.size, dogBeta.size) = 20 from rfl,
    show gender_points dogAlpha.gender dogBeta.gender = 15 from rfl,
    show compatible_goals (dogAlpha.looking_for, dogBeta.looking_for) = 20
      from rfl,
    show breed_points dogAlpha.breed dogBeta.breed = 5 from rfl, hts]
  norm_num

/-- C4 counterexample: two concrete profiles whose score is `92.5`, which is
not an integer — the scorer does not return an integer for every input. -/
theorem score_not_integer :
    calculate_dog_compatibility_score dogAlpha dogBeta = 185 / 2 ∧
    ¬ ∃ n : ℤ, calculate_dog_compatibility_score dogAlpha dogBeta = (n : ℚ) := by
  refine ⟨score_dogAlpha_dogBeta, ?_⟩
  rintro ⟨n, hn⟩
  rw [score_dogAlpha_dogBeta] at hn
  have h2 : (185 : ℚ) = 2 * (n : ℚ) := by
    field_simp at hn
    linarith
  have h3 : (185 : ℤ) = 2 * n := by exact_mod_cast h2
  omega

lemma half_add {x y : ℚ} (hx : ∃ k : ℤ, x = (k : ℚ) / 2)
    (hy : ∃ k : ℤ, y = (k : ℚ) / 2) : ∃ k : ℤ, x + y = (k : ℚ) / 2 := by
  obtain ⟨k1, rfl⟩ := hx
  obtain ⟨k2, rfl⟩ := hy
  exact ⟨k1 + k2, by push_cast; ring⟩

lemma half_min {x y : ℚ} (hx : ∃ k : ℤ, x = (k : ℚ) / 2)
    (hy : ∃ k : ℤ, y = (k : ℚ) / 2) : ∃ k : ℤ, min x y = (k : ℚ) / 2 := by
  rcases le_total x y with h | h
  · rw [min_eq_left h]; exact hx
  · rw [min_eq_right h]; exact hy

lemma half_list_sum {l : List ℚ} (h : ∀ x ∈ l, ∃ k : ℤ, x = (k : ℚ) / 2) :
    ∃ k : ℤ, l.sum = (k : ℚ) / 2 := by
  induction l with
  | nil => exact ⟨0, by norm_num⟩
  | cons a t ih =>
    rw [List.sum_cons]
    exact half_add (h a (List.mem_cons_self a t))
      (ih fun x hx => h x (List.mem_cons_of_mem a hx))

lemma age_points_half (a1 a2 : Nat) :
    ∃ k : ℤ, age_points a1 a2 = (k : ℚ) / 2 := by
  unfold age_points
  dsimp only
  split_ifs <;>
    first
      | (refine ⟨50, ?_⟩; norm_num; done)
      | (refine ⟨40, ?_⟩; norm_num; done)
      | (refine ⟨30, ?_⟩; norm_num; done)
      | (refine ⟨20, ?_⟩; norm_num; done)
      | (refine ⟨10, ?_⟩; norm_num; done)

lemma size_compatibility_half (p : String × String) :
    ∃ k : ℤ, size_compatibility p = (k : ℚ) / 2 := by
  unfold size_compatibility
  split_ifs <;>
    first
      | (refine ⟨40, ?_⟩; norm_num; done)
      | (refine ⟨30, ?_⟩; norm_num; done)
      | (refine ⟨10, ?_⟩; norm_num; done)
      | (refine ⟨20, ?_⟩; norm_num; done)

lemma gender_points_half (g1 g2 : String) :
    ∃ k : ℤ, gender_points g1 g2 = (k : ℚ) / 2 := by
  unfold gender_points
  split_ifs <;>
    first
      | (refine ⟨30, ?_⟩; norm_num; done)
      | (refine ⟨20, ?_⟩; norm_num; done)

set_option maxHeartbeats 1000000 in
lemma compatible_goals_half (p : String × String) :
    ∃ k : ℤ, compatible_goals p = (k : ℚ) / 2 := by
  unfold compatible_goals
  split_ifs <;>
    first
      | (refine ⟨40, ?_⟩; norm_num; done)
      | (refine ⟨30, ?_⟩; norm_num; done)
      | (refine ⟨20, ?_⟩; norm_num; done)

lemma breed_points_half (b1 b2 : String) :
    ∃ k : ℤ, breed_points b1 b2 = (k : ℚ) / 2 := by
  unfold breed_points
  split_ifs <;>
    first
      | (refine ⟨10, ?_⟩; norm_num; done)
      | (refine ⟨0, ?_⟩; norm_num; done)

lemma tag_pair_points_half (w1 w2 : String) :
    ∃ k : ℤ, tag_pair_points w1 w2 = (k : ℚ) / 2 := by
  unfold tag_pair_points
  split_ifs <;>
    first
      | (refine ⟨15, ?_⟩; norm_num; done)
      | (refine ⟨10, ?_⟩; norm_num; done)
      | (refine ⟨0, ?_⟩; norm_num; done)

lemma temperament_score_half (d1 d2 : Dog) :
    ∃ k : ℤ, temperament_score d1 d2 = (k : ℚ) / 2 := by
  unfold temperament_score
  refine half_list_sum ?_
  intro x hx
  obtain ⟨w1, _, rfl⟩ := List.mem_map.mp hx
  refine half_list_sum ?_
  intro y hy
  obtain ⟨w2, _, rfl⟩ := List.mem_map.mp hy
  exact tag_pair_points_half w1 w2

/-- C4 amended: for every pair of profiles the score is an integer multiple
of one half (so it lies on the half-integer grid; by the counterexample it
is not always an integer, the identical-keyword temperament bonus of `7.5`
can make it end in `.5`). -/
theorem score_half_integer (d1 d2 : Dog) :
    ∃ k : ℤ, calculate_dog_compatibility_score d1 d2 = (k : ℚ) / 2 := by
  unfold calculate_dog_compatibility_score
  split_ifs with h
  · exact ⟨0, by norm_num⟩
  · refine half_min (half_add (half_add (half_add (half_add (half_add
      (age_points_half d1.age d2.age)
      (size_compatibility_half (d1.size, d2.size)))
      (gender_points_half d1.gender d2.gender))
      (compatible_goals_half (d1.looking_for, d2.looking_for)))
      (breed_points_half d1.breed d2.breed))
      (half_min (temperament_score_half d1 d2) ⟨30, by norm_num⟩))
      ⟨200, by norm_num⟩

/-! ### Candidate finder: filters -/

lemma eligible_dogs_base (dogs : List Dog) (db : MatchStore) (user_dog : Dog)
    (exclude_matches : Bool) {d : Dog}
    (hd : d ∈ eligible_dogs dogs db user_dog exclude_matches) :
    d ∈ ((dogs.filter (fun d => d.is_active && d.id != user_dog.id)).filter
        (fun d => d.owner != user_dog.owner)).filter (fun d =>
      decide (max 0 ((user_dog.age : Int) - 10) ≤ (d.age : Int)) &&
      decide ((d.age : Int) ≤ (user_dog.age : Int) + 10)) := by
  unfold eligible_dogs at hd
  cases exclude_matches with
  | false => simpa using hd
  | true =>
    simp only [if_true] at hd
    exact List.mem_of_mem_filter hd

/-- C7: every profile returned by `get_compatible_dogs` is distinct from the
query profile, active, owned by a different owner, inside the age window,
and — when existing matches are excluded — has no match row in either
direction with the query profile. -/
theorem get_compatible_dogs_membership (dogs : List Dog) (db : MatchStore)
    (user_dog : Dog) (exclude_matches : Bool) (c : Dog)
    (hc : c ∈ get_compatible_dogs dogs db user_dog exclude_matches) :
    c.id ≠ user_dog.id ∧ c.is_active = true ∧ c.owner ≠ user_dog.owner ∧
    max 0 ((user_dog.age : Int) - 10) ≤ (c.age : Int) ∧
    (c.age : Int) ≤ (user_dog.age : Int) + 10 ∧
    (exclude_matches = true → ∀ m ∈ db.«matches»,
      ¬(m.dog_from_id = user_dog.id ∧ m.dog_to_id = c.id) ∧
      ¬(m.dog_from_id = c.id ∧ m.dog_to_id = user_dog.id)) := by
  unfold get_compatible_dogs at hc
  obtain ⟨x, hx, rfl⟩ := List.mem_map.mp hc
  rw [List.mem_insertionSort] at hx
  unfold compatible_dogs_with_scores at hx
  obtain ⟨d, hd, hdx⟩ := List.mem_map.mp (List.mem_of_mem_filter hx)
  have hfst : x.1 = d := by rw [← hdx]
  rw [hfst]
  have hbase := eligible_dogs_base dogs db user_dog exclude_matches hd
  obtain ⟨hd2, hage⟩ := List.mem_filter.mp hbase
  obtain ⟨hd1, howner⟩ := List.mem_filter.mp hd2
  obtain ⟨-, hactive⟩ := List.mem_filter.mp hd1
  simp only [Bool.and_eq_true, bne_iff_ne, decide_eq_true_eq] at hactive
  simp only [bne_iff_ne] at howner
  simp only [Bool.and_eq_true, decide_eq_true_eq] at hage
  refine ⟨hactive.2, hactive.1, howner, hage.1, hage.2, ?_⟩
  intro he m hm
  subst he
  unfold eligible_dogs at hd
  simp only [if_true] at hd
  have hnotin0 := List.of_mem_filter hd
  have hnotin : d.id ∉ (db.«matches».filter (fun m =>
      m.dog_from_id == user_dog.id || m.dog_to_id == user_dog.id)).map
      (fun m => if m.dog_from_id = user_dog.id then m.dog_to_id
        else m.dog_from_id) := by
    simpa using hnotin0
  constructor
  · rintro ⟨h1, h2⟩
    refine hnotin (List.mem_map.mpr ⟨m, List.mem_filter.mpr ⟨hm, ?_⟩, ?_⟩)
    · simp [h1]
    · rw [if_pos h1, h2]
  · rintro ⟨h1, h2⟩
    refine hnotin (List.mem_map.mpr ⟨m, List.mem_filter.mpr ⟨hm, ?_⟩, ?_⟩)
    · simp [h2]
    · have hne : m.dog_from_id ≠ user_dog.id := by
        rw [h1]
        exact hactive.2
      rw [if_neg hne, h1]

/-- The concrete candidate query used as witness: from a fresh table,
`dogBeta` is the only candidate for `dogAlpha`. -/
lemma get_compatible_dogs_concrete :
    get_compatible_dogs [dogAlpha, dogBeta] emptyStore dogAlpha true =
      [dogBeta] := by
  have he : eligible_dogs [dogAlpha, dogBeta] emptyStore dogAlpha true =
      [dogBeta] := by decide
  unfold get_compatible_dogs compatible_dogs_with_scores
  rw [he]
  rw [show List.map (fun dog =>
      (dog, calculate_dog_compatibility_score dogAlpha dog)) [dogBeta] =
      [(dogBeta, 185 / 2)] from by rw [List.map_cons, List.map_nil,
        score_dogAlpha_dogBeta]]
  rw [show List.filter (fun x : Dog × ℚ => decide ((30 : ℚ) ≤ x.2))
      [(dogBeta, 185 / 2)] = [(dogBeta, 185 / 2)] from by
    simp only [List.filter]
    norm_num]
  rfl

/-- Witness for `get_compatible_dogs_membership` on the concrete query. -/
theorem get_compatible_dogs_membership_witness :
    dogBeta ∈ get_compatible_dogs [dogAlpha, dogBeta] emptyStore dogAlpha
      true ∧
    dogBeta.id ≠ dogAlpha.id ∧ dogBeta.is_active = true ∧
    dogBeta.owner ≠ dogAlpha.owner := by
  have hmem : dogBeta ∈ get_compatible_dogs [dogAlpha, dogBeta] emptyStore
      dogAlpha true := by
    rw [get_compatible_dogs_concrete]
    exact List.mem_singleton.mpr rfl
  have h := get_compatible_dogs_membership [dogAlpha, dogBeta] emptyStore
    dogAlpha true dogBeta hmem
  exact ⟨hmem, h.1, h.2.1, h.2.2.1⟩

/-! ### Candidate finder: ordering -/

lemma score_of_mem_with_scores {dogs : List Dog} {db : MatchStore}
    {user_dog : Dog} {exclude_matches : Bool} {x : Dog × ℚ}
    (hx : x ∈ compatible_dogs_with_scores dogs db user_dog exclude_matches) :
    x.2 = calculate_dog_compatibility_score user_dog x.1 := by
  unfold compatible_dogs_with_scores at hx
  obtain ⟨d, _, rfl⟩ := List.mem_map.mp (List.mem_of_mem_filter hx)
  rfl

lemma filter_orderedInsert_pos (p : Dog × ℚ → Bool) (a : Dog × ℚ)
    (l : List (Dog × ℚ)) (hpa : p a = true)
    (hmove : ∀ b ∈ l, p b = true → score_ge a b) :
    (l.orderedInsert score_ge a).filter p = a :: l.filter p := by
  induction l with
  | nil => simp [List.orderedInsert, List.filter, hpa]
  | cons b t ih =>
    rw [List.orderedInsert]
    by_cases hab : score_ge a b
    · rw [if_pos hab]
      simp [List.filter, hpa]
    · rw [if_neg hab]
      have hpb : p b = false := by
        cases hb : p b with
        | false => rfl
        | true => exact absurd (hmove b (List.mem_cons_self b t) hb) hab
      rw [List.filter_cons_of_neg (by simp [hpb]),
        List.filter_cons_of_neg (by simp [hpb])]
      exact ih fun c hc hpc => hmove c (List.mem_cons_of_mem b hc) hpc

lemma filter_orderedInsert_neg (p : Dog × ℚ → Bool) (a : Dog × ℚ)
    (l : List (Dog × ℚ)) (hpa : p a = false) :
    (l.orderedInsert score_ge a).filter p = l.filter p := by
  induction l with
  | nil => simp [List.orderedInsert, List.filter, hpa]
  | cons b t ih =>
    rw [List.orderedInsert]
    by_cases hab : score_ge a b
    · rw [if_pos hab, List.filter_cons_of_neg (by simp [hpa])]
    · rw [if_neg hab]
      cases hpb : p b with
      | false =>
        rw [List.filter_cons_of_neg (by simp [hpb]),
          List.filter_cons_of_neg (by simp [hpb])]
        exact ih
      | true =>
        rw [List.filter_cons_of_pos (by simp [hpb]),
          List.filter_cons_of_pos (by simp [hpb]), ih]

lemma filter_insertionSort_score (s : ℚ) (l : List (Dog × ℚ)) :
    (List.insertionSort score_ge l).filter (fun x => decide (x.2 = s)) =
      l.filter (fun x => decide (x.2 = s)) := by
  induction l with
  | nil => rfl
  | cons a t ih =>
    rw [List.insertionSort]
    by_cases hpa : a.2 = s
    · rw [filter_orderedInsert_pos _ _ _ (by simp [hpa]) ?_, ih,
        List.filter_cons_of_pos (by simp [hpa])]
      intro b _ hpb
      have hb : b.2 = s := by simpa using hpb
      unfold score_ge
      rw [hpa, hb]
    · rw [filter_orderedInsert_neg _ _ _ (by simp [hpa]), ih,
        List.filter_cons_of_neg (by simp [hpa])]

/-- C8: the candidate list is sorted by descending compatibility score, and
candidates of equal score keep their relative order from the pre-sort
scored candidate sequence (the sort is stable). -/
theorem get_compatible_dogs_sorted (dogs : List Dog) (db : MatchStore)
    (user_dog : Dog) (exclude_matches : Bool) :
    (get_compatible_dogs dogs db user_dog exclude_matches).Pairwise
      (fun d1 d2 => calculate_dog_compatibility_score user_dog d2 ≤
        calculate_dog_compatibility_score user_dog d1) ∧
    (∀ s : ℚ,
      (get_compatible_dogs dogs db user_dog exclude_matches).filter
        (fun d =>
          decide (calculate_dog_compatibility_score user_dog d = s)) =
      ((compatible_dogs_with_scores dogs db user_dog exclude_matches).map
        Prod.fst).filter
        (fun d =>
          decide (calculate_dog_compatibility_score user_dog d = s))) := by
  constructor
  · have hsorted := List.sorted_insertionSort score_ge
      (compatible_dogs_with_scores dogs db user_dog exclude_matches)
    unfold get_compatible_dogs
    rw [List.pairwise_map]
    refine hsorted.imp_of_mem ?_
    intro a b ha hb hr
    rw [List.mem_insertionSort] at ha hb
    have h1 := score_of_mem_with_scores ha
    have h2 := score_of_mem_with_scores hb
    rw [← h1, ← h2]
    exact hr
  · intro s
    unfold get_compatible_dogs
    rw [List.filter_map, List.filter_map]
    refine congrArg (List.map Prod.fst) ?_
    have hcongr1 : ∀ x ∈ List.insertionSort score_ge
        (compatible_dogs_with_scores dogs db user_dog exclude_matches),
        ((fun d => decide (calculate_dog_compatibility_score user_dog d = s))
          ∘ Prod.fst) x = (fun x : Dog × ℚ => decide (x.2 = s)) x := by
      intro x hx
      have := score_of_mem_with_scores ((List.mem_insertionSort _).mp hx)
      simp only [Function.comp_apply, this]
    have hcongr2 : ∀ x ∈ compatible_dogs_with_scores dogs db user_dog
        exclude_matches,
        ((fun d => decide (calculate_dog_compatibility_score user_dog d = s))
          ∘ Prod.fst) x = (fun x : Dog × ℚ => decide (x.2 = s)) x := by
      intro x hx
      have := score_of_mem_with_scores hx
      simp only [Function.comp_apply, this]
    rw [List.filter_congr hcongr1, List.filter_congr hcongr2,
      filter_insertionSort_score]

end DogMatch
